import Mathlib

/-!
Verification of the CryptoIndicatorTracker signal-computation layer.

The definitions below are shallow embeddings of the Python source:
prices and scores are rationals (ℚ), missing values (pandas NaN) are
`Option.none`, boolean pandas series are Lean `Bool`, and pandas
comparisons involving NaN evaluate to `false`, exactly as `x <= NaN`
does in pandas.
-/

set_option maxRecDepth 4000

/-- Rolling simple moving average, as computed by
`Series.rolling(window=w).mean()` in `utils/pi_cycle.py` and
`pages/06_ScaleSignals_Backtest.py`: defined at index `t` exactly when the
trailing window of `w` prices (indices `t+1-w .. t`) fits inside the series,
`none` (NaN) otherwise. The price series itself is assumed gap-free. -/
def smaAt (w : Nat) (p : List ℚ) (t : Nat) : Option ℚ :=
  if w ≤ t + 1 ∧ t < p.length then
    some ((((p.drop (t + 1 - w)).take w).sum) / (w : ℚ))
  else none

/-- Crossover detection from `utils/pi_cycle.py` lines 52-56:
`(MA111.shift(1) < MA350x2.shift(1)) & (MA111 >= MA350x2)`.
Any comparison against an undefined (NaN) moving average is `false`,
and the shifted value at the first row is NaN, so `t = 0` yields `false`. -/
def crossoverAt (p : List ℚ) : Nat → Bool
  | 0 => false
  | t + 1 =>
    match smaAt 350 p t with
    | none => false
    | some b =>
      match smaAt 350 p (t + 1) with
      | none => false
      | some d =>
        match smaAt 111 p t, smaAt 111 p (t + 1) with
        | some a, some c => decide (a < 2 * b) && decide (2 * d ≤ c)
        | _, _ => false

/-- The Pi-Cycle exit condition of the backtest page, from
`pages/06_ScaleSignals_Backtest.py` line 61:
`pitop = (sma_111.mul(2).shift(1) <= sma_350.shift(1)) & (sma_111.mul(2) > sma_350)`. -/
def pitopAt (p : List ℚ) : Nat → Bool
  | 0 => false
  | t + 1 =>
    match smaAt 350 p t with
    | none => false
    | some b =>
      match smaAt 350 p (t + 1) with
      | none => false
      | some d =>
        match smaAt 111 p t, smaAt 111 p (t + 1) with
        | some a, some c => decide (2 * a ≤ b) && decide (d < 2 * c)
        | _, _ => false

/-- The crossover list built in `utils/pi_cycle.py` lines 72-77: the dates at
which `Crossover` is true, each recorded together with the price at that date. -/
def piCrossovers (p : List ℚ) : List (Nat × ℚ) :=
  (List.range p.length).filterMap fun t =>
    if crossoverAt p t then (p.get? t).map (fun pr => (t, pr)) else none

/-- On a constant series every defined window averages to the constant. -/
theorem smaAt_replicate (w n : Nat) (c : ℚ) (hw : w ≠ 0) (t : Nat)
    (h1 : w ≤ t + 1) (h2 : t < n) :
    smaAt w (List.replicate n c) t = some c := by
  have hlen : t < (List.replicate n c).length := by simpa using h2
  unfold smaAt
  rw [if_pos ⟨h1, hlen⟩]
  have hdrop : (List.replicate n c).drop (t + 1 - w) = List.replicate (n - (t + 1 - w)) c :=
    List.drop_replicate ..
  have htake : (List.replicate (n - (t + 1 - w)) c).take w
      = List.replicate (min w (n - (t + 1 - w))) c := List.take_replicate ..
  have hmin : min w (n - (t + 1 - w)) = w := by omega
  rw [hdrop, htake, hmin, List.sum_replicate]
  have hw' : (w : ℚ) ≠ 0 := by exact_mod_cast hw
  rw [nsmul_eq_mul, mul_div_cancel_left₀ c hw']

/-- Inversion: a detected crossover exposes the four defined moving averages
and the two inequalities of the rule. -/
theorem crossoverAt_true_elim (p : List ℚ) (t : Nat) (h : crossoverAt p t = true) :
    ∃ t' a b c d, t = t' + 1 ∧ smaAt 111 p t' = some a ∧ smaAt 350 p t' = some b ∧
      smaAt 111 p (t' + 1) = some c ∧ smaAt 350 p (t' + 1) = some d ∧
      a < 2 * b ∧ 2 * d ≤ c := by
  match t with
  | 0 => simp [crossoverAt] at h
  | t' + 1 =>
    refine ⟨t', ?_⟩
    simp only [crossoverAt] at h
    cases hb : smaAt 350 p t' with
    | none => rw [hb] at h; simp at h
    | some b =>
      rw [hb] at h
      simp only at h
      cases hd : smaAt 350 p (t' + 1) with
      | none => rw [hd] at h; simp at h
      | some d =>
        rw [hd] at h
        simp only at h
        cases ha : smaAt 111 p t' with
        | none => rw [ha] at h; simp at h
        | some a =>
          rw [ha] at h
          cases hc : smaAt 111 p (t' + 1) with
          | none => rw [hc] at h; simp at h
          | some c =>
            rw [hc] at h
            simp only [Bool.and_eq_true, decide_eq_true_eq] at h
            exact ⟨a, b, c, d, rfl, rfl, rfl, rfl, rfl, h.1, h.2⟩

/-- Computation rule for `crossoverAt` at a successor index with all four
moving averages defined. -/
theorem crossoverAt_succ_eq (p : List ℚ) (t : Nat) (a b c d : ℚ)
    (ha : smaAt 111 p t = some a) (hb : smaAt 350 p t = some b)
    (hc : smaAt 111 p (t + 1) = some c) (hd : smaAt 350 p (t + 1) = some d) :
    crossoverAt p (t + 1) = (decide (a < 2 * b) && decide (2 * d ≤ c)) := by
  simp only [crossoverAt, hb, hd, ha, hc]

/-- Computation rule for `pitopAt` at a successor index with all four
moving averages defined. -/
theorem pitopAt_succ_eq (p : List ℚ) (t : Nat) (a b c d : ℚ)
    (ha : smaAt 111 p t = some a) (hb : smaAt 350 p t = some b)
    (hc : smaAt 111 p (t + 1) = some c) (hd : smaAt 350 p (t + 1) = some d) :
    pitopAt p (t + 1) = (decide (2 * a ≤ b) && decide (d < 2 * c)) := by
  simp only [pitopAt, hb, hd, ha, hc]

/-- C4: `get_pi_cycle_data` flags a crossover at date `t` iff
`SMA(111)[t-1] < SMA(350)[t-1]*2` and `SMA(111)[t] >= SMA(350)[t]*2`;
every recorded crossover carries the price at its date; and a series whose
SMA(111) stays strictly below `SMA(350)*2` wherever both are defined yields
an empty crossover list. -/
theorem pi_cycle_crossover_rule (p : List ℚ) (t : Nat) (a b c d : ℚ)
    (ha : smaAt 111 p t = some a) (hb : smaAt 350 p t = some b)
    (hc : smaAt 111 p (t + 1) = some c) (hd : smaAt 350 p (t + 1) = some d) :
    (crossoverAt p (t + 1) = true ↔ (a < 2 * b ∧ 2 * d ≤ c))
    ∧ (∀ s pr, (s, pr) ∈ piCrossovers p → crossoverAt p s = true ∧ p.get? s = some pr)
    ∧ ((∀ s e f, smaAt 111 p s = some e → smaAt 350 p s = some f → e < 2 * f) →
        piCrossovers p = []) := by
  refine ⟨?_, ?_, ?_⟩
  · rw [crossoverAt_succ_eq p t a b c d ha hb hc hd]
    simp
  · intro s pr hmem
    unfold piCrossovers at hmem
    simp only [List.mem_filterMap, List.mem_range] at hmem
    obtain ⟨u, _, hu⟩ := hmem
    by_cases hcr : crossoverAt p u = true
    · rw [if_pos hcr] at hu
      cases hg : p.get? u with
      | none => rw [hg] at hu; simp at hu
      | some pr' =>
        rw [hg] at hu
        simp only [Option.map_some'] at hu
        obtain ⟨h1, h2⟩ := Prod.mk.injEq .. ▸ (Option.some.injEq .. ▸ hu)
        subst h1; subst h2
        exact ⟨hcr, hg⟩
    · rw [if_neg hcr] at hu; simp at hu
  · intro hbelow
    unfold piCrossovers
    rw [List.filterMap_eq_nil_iff]
    intro u _
    by_cases hcr : crossoverAt p u = true
    · exfalso
      obtain ⟨u', a', b', c', d', _, _, _, hc', hd', _, hge⟩ :=
        crossoverAt_true_elim p u hcr
      exact absurd (hbelow (u' + 1) c' d' hc' hd') (by linarith)
    · rw [if_neg hcr]

/-- Witness for C4 on the constant series of 351 prices equal to 100. -/
theorem pi_cycle_crossover_rule_witness :
    (crossoverAt (List.replicate 351 (100 : ℚ)) 350 = true ↔
      ((100 : ℚ) < 2 * 100 ∧ 2 * (100 : ℚ) ≤ 100))
    ∧ (∀ s pr, (s, pr) ∈ piCrossovers (List.replicate 351 (100 : ℚ)) →
        crossoverAt (List.replicate 351 (100 : ℚ)) s = true ∧
        (List.replicate 351 (100 : ℚ)).get? s = some pr)
    ∧ ((∀ s e f, smaAt 111 (List.replicate 351 (100 : ℚ)) s = some e →
          smaAt 350 (List.replicate 351 (100 : ℚ)) s = some f → e < 2 * f) →
        piCrossovers (List.replicate 351 (100 : ℚ)) = []) :=
  pi_cycle_crossover_rule (List.replicate 351 (100 : ℚ)) 349 100 100 100 100
    (smaAt_replicate 111 351 100 (by decide) 349 (by decide) (by decide))
    (smaAt_replicate 350 351 100 (by decide) 349 (by decide) (by decide))
    (smaAt_replicate 111 351 100 (by decide) 350 (by decide) (by decide))
    (smaAt_replicate 350 351 100 (by decide) 350 (by decide) (by decide))

/-- A price series exposing the difference between the `pitop` condition of
the backtest page and the PiCycleDetector crossover rule: 240 days at 100,
then 110 days at 0, then a single day at 5000. -/
def piCexPrices : List ℚ :=
  List.replicate 240 100 ++ (List.replicate 110 0 ++ [5000])

theorem piCexPrices_length : piCexPrices.length = 351 := by
  simp [piCexPrices]

theorem piCex_sma350_349 : smaAt 350 piCexPrices 349 = some (24000 / 350) := by
  unfold smaAt
  rw [if_pos ⟨by omega, by rw [piCexPrices_length]; omega⟩]
  have : (piCexPrices.drop (349 + 1 - 350)).take 350
      = List.replicate 240 (100 : ℚ) ++ List.replicate 110 0 := by
    simp [piCexPrices, List.take_append_eq_append_take, List.take_replicate]
  rw [this]
  norm_num [List.sum_append, List.sum_replicate]

theorem piCex_sma350_350 : smaAt 350 piCexPrices 350 = some (28900 / 350) := by
  unfold smaAt
  rw [if_pos ⟨by omega, by rw [piCexPrices_length]; omega⟩]
  have : (piCexPrices.drop (350 + 1 - 350)).take 350
      = List.replicate 239 (100 : ℚ) ++ (List.replicate 110 0 ++ [5000]) := by
    simp only [piCexPrices, List.drop_append_eq_append_drop, List.drop_replicate,
      List.take_append_eq_append_take, List.take_replicate]
    norm_num
  rw [this]
  norm_num [List.sum_append, List.sum_replicate]

theorem piCex_sma111_349 : smaAt 111 piCexPrices 349 = some (100 / 111) := by
  unfold smaAt
  rw [if_pos ⟨by omega, by rw [piCexPrices_length]; omega⟩]
  have : (piCexPrices.drop (349 + 1 - 111)).take 111
      = List.replicate 1 (100 : ℚ) ++ List.replicate 110 0 := by
    simp only [piCexPrices, List.drop_append_eq_append_drop, List.drop_replicate,
      List.take_append_eq_append_take, List.take_replicate]
    norm_num
  rw [this]
  norm_num [List.sum_append, List.sum_replicate]

theorem piCex_sma111_350 : smaAt 111 piCexPrices 350 = some (5000 / 111) := by
  unfold smaAt
  rw [if_pos ⟨by omega, by rw [piCexPrices_length]; omega⟩]
  have : (piCexPrices.drop (350 + 1 - 111)).take 111
      = List.replicate 110 (0 : ℚ) ++ [5000] := by
    simp only [piCexPrices, List.drop_append_eq_append_drop, List.drop_replicate,
      List.take_append_eq_append_take, List.take_replicate]
    norm_num
  rw [this]
  norm_num [List.sum_append, List.sum_replicate]

/-- C3 counterexample: on `piCexPrices`, at date 350 the exit condition of
the backtest page fires while the PiCycleDetector crossover rule does not: in
particular `SMA(111)[350] >= SMA(350)[350]*2` fails, so the two boolean
series are not equal. -/
theorem pitop_ne_crossover_cex :
    pitopAt piCexPrices 350 = true
    ∧ crossoverAt piCexPrices 350 = false
    ∧ ¬(2 * (28900 / 350 : ℚ) ≤ 5000 / 111) := by
  have hcex : ¬(2 * (28900 / 350 : ℚ) ≤ 5000 / 111) := by norm_num
  refine ⟨?_, ?_, hcex⟩
  · show pitopAt piCexPrices (349 + 1) = true
    rw [pitopAt_succ_eq piCexPrices 349 (100 / 111) (24000 / 350) (5000 / 111)
      (28900 / 350) piCex_sma111_349 piCex_sma350_349 piCex_sma111_350 piCex_sma350_350]
    have h1 : (2 * (100 / 111 : ℚ) ≤ 24000 / 350) := by norm_num
    have h2 : ((28900 / 350 : ℚ) < 2 * (5000 / 111)) := by norm_num
    simp [h1, h2]
  · show crossoverAt piCexPrices (349 + 1) = false
    rw [crossoverAt_succ_eq piCexPrices 349 (100 / 111) (24000 / 350) (5000 / 111)
      (28900 / 350) piCex_sma111_349 piCex_sma350_349 piCex_sma111_350 piCex_sma350_350]
    simp [hcex]

/-- C3 amended: where both moving averages are defined at dates `t` and `t+1`,
the Pi-Cycle exit condition of the backtest page holds iff
`2*SMA(111)[t] <= SMA(350)[t]` and `2*SMA(111)[t+1] > SMA(350)[t+1]` — a
crossing of SMA(111) above half of SMA(350), not the PiCycleDetector rule. -/
theorem backtest_pitop_rule (p : List ℚ) (t : Nat) (a b c d : ℚ)
    (ha : smaAt 111 p t = some a) (hb : smaAt 350 p t = some b)
    (hc : smaAt 111 p (t + 1) = some c) (hd : smaAt 350 p (t + 1) = some d) :
    pitopAt p (t + 1) = true ↔ (2 * a ≤ b ∧ d < 2 * c) := by
  rw [pitopAt_succ_eq p t a b c d ha hb hc hd]
  simp

/-- Witness for the amended C3 statement on the constant series at 100:
the exit condition is false there since `2*100 <= 100` fails. -/
theorem backtest_pitop_rule_witness :
    pitopAt (List.replicate 351 (100 : ℚ)) 350 = true ↔
      (2 * (100 : ℚ) ≤ 100 ∧ (100 : ℚ) < 2 * 100) :=
  backtest_pitop_rule (List.replicate 351 (100 : ℚ)) 349 100 100 100 100
    (smaAt_replicate 111 351 100 (by decide) 349 (by decide) (by decide))
    (smaAt_replicate 350 351 100 (by decide) 349 (by decide) (by decide))
    (smaAt_replicate 111 351 100 (by decide) 350 (by decide) (by decide))
    (smaAt_replicate 350 351 100 (by decide) 350 (by decide) (by decide))

/-- One iteration of the position loop of `pages/06_ScaleSignals_Backtest.py`
lines 126-141. The state is the `in_pos` flag together with the `Position`
column (initially all zeros), and iteration `i` reads the signals at the
previous row `i - 1`. -/
def posStep (entry exitS : List Bool) (st : Bool × (Nat → Nat)) (i : Nat) :
    Bool × (Nat → Nat) :=
  if !st.1 && entry.getD (i - 1) false then (true, Function.update st.2 i 1)
  else if st.1 && exitS.getD (i - 1) false then (false, Function.update st.2 i 0)
  else (st.1, Function.update st.2 i (st.2 (i - 1)))

/-- The `Position` column after running the loop `for i in range(1, len(bt))`. -/
def runPositions (entry exitS : List Bool) (n : Nat) : Nat → Nat :=
  ((List.range' 1 (n - 1)).foldl (posStep entry exitS) (false, fun _ => 0)).2

/-- The state machine described by the spec: flat at day 0; flat-to-long when
the previous-day entry signal is true, long-to-flat when the previous-day exit
signal is true, otherwise hold the previous position. -/
def positionSpec (entry exitS : List Bool) : Nat → Nat
  | 0 => 0
  | t + 1 =>
    if positionSpec entry exitS t = 0 ∧ entry.getD t false then 1
    else if positionSpec entry exitS t = 1 ∧ exitS.getD t false then 0
    else positionSpec entry exitS t

theorem positionSpec_le_one (entry exitS : List Bool) (t : Nat) :
    positionSpec entry exitS t ≤ 1 := by
  induction t with
  | zero => simp [positionSpec]
  | succ t ih =>
    simp only [positionSpec]
    split_ifs <;> omega

/-- Bookkeeping for a single write of the position column: updating row
`k + 1` with the spec value preserves agreement with the spec on rows
`0 .. k + 1`. -/
theorem update_invariant (f g : Nat → Nat) (k v : Nat)
    (hf : ∀ j, j ≤ k → f j = g j) (hv : v = g (k + 1)) :
    ∀ j, j ≤ k + 1 → Function.update f (k + 1) v j = g j := by
  intro j hj
  rcases Nat.lt_or_ge j (k + 1) with h | h
  · rw [Function.update_noteq (by omega)]
    exact hf j (by omega)
  · have hje : j = k + 1 := by omega
    subst hje
    rw [Function.update_same, hv]

/-- Loop invariant: after processing rows `1 .. k`, the `in_pos` flag mirrors
the spec state machine at `k` and every row up to `k` carries the spec
position. -/
theorem runPositions_aux (entry exitS : List Bool) (k : Nat) :
    (((List.range' 1 k).foldl (posStep entry exitS) (false, fun _ => 0)).1
        = decide (positionSpec entry exitS k = 1))
    ∧ ∀ j, j ≤ k →
        ((List.range' 1 k).foldl (posStep entry exitS) (false, fun _ => 0)).2 j
          = positionSpec entry exitS j := by
  induction k with
  | zero =>
    refine ⟨by simp [positionSpec], ?_⟩
    intro j hj
    interval_cases j
    simp [positionSpec]
  | succ k ih =>
    obtain ⟨h1, h2⟩ := ih
    have hconcat : List.range' 1 (k + 1) = List.range' 1 k ++ [k + 1] := by
      have h := @List.range'_concat 1 1 k
      rw [show 1 + 1 * k = k + 1 by omega] at h
      exact h
    rw [hconcat, List.foldl_append, List.foldl_cons, List.foldl_nil]
    set st := (List.range' 1 k).foldl (posStep entry exitS) (false, fun _ => 0) with hst
    have hidx : k + 1 - 1 = k := by omega
    have hple := positionSpec_le_one entry exitS k
    have hpk01 : positionSpec entry exitS k = 0 ∨ positionSpec entry exitS k = 1 := by omega
    rcases hpk01 with hpk | hpk
    · have hflag : st.1 = false := by rw [h1, hpk]; rfl
      cases he : entry.getD k false with
      | true =>
        have hstep : posStep entry exitS st (k + 1)
            = (true, Function.update st.2 (k + 1) 1) := by
          unfold posStep
          rw [hidx, hflag, he]
          simp
        have hspec : positionSpec entry exitS (k + 1) = 1 := by
          simp only [positionSpec]
          rw [if_pos ⟨hpk, he⟩]
        rw [hstep]
        exact ⟨by simp [hspec],
          update_invariant st.2 (positionSpec entry exitS) k 1 h2 (by rw [hspec])⟩
      | false =>
        have hstep : posStep entry exitS st (k + 1)
            = (false, Function.update st.2 (k + 1) (st.2 k)) := by
          unfold posStep
          rw [hidx, hflag, he]
          simp
        have hspec : positionSpec entry exitS (k + 1) = positionSpec entry exitS k := by
          simp only [positionSpec]
          rw [if_neg (by rw [he]; simp), if_neg (by simp [hpk])]
        rw [hstep]
        exact ⟨by simp [hspec, hpk],
          update_invariant st.2 (positionSpec entry exitS) k (st.2 k) h2
            (by rw [h2 k le_rfl, hspec])⟩
    · have hflag : st.1 = true := by rw [h1, hpk]; rfl
      cases hx : exitS.getD k false with
      | true =>
        have hstep : posStep entry exitS st (k + 1)
            = (false, Function.update st.2 (k + 1) 0) := by
          unfold posStep
          rw [hidx, hflag, hx]
          simp
        have hspec : positionSpec entry exitS (k + 1) = 0 := by
          simp only [positionSpec]
          rw [if_neg (by simp [hpk]), if_pos ⟨hpk, hx⟩]
        rw [hstep]
        exact ⟨by simp [hspec],
          update_invariant st.2 (positionSpec entry exitS) k 0 h2 (by rw [hspec])⟩
      | false =>
        have hstep : posStep entry exitS st (k + 1)
            = (true, Function.update st.2 (k + 1) (st.2 k)) := by
          unfold posStep
          rw [hidx, hflag, hx]
          simp
        have hspec : positionSpec entry exitS (k + 1) = positionSpec entry exitS k := by
          simp only [positionSpec]
          rw [if_neg (by simp [hpk]), if_neg (by rw [hx]; simp)]
        rw [hstep]
        exact ⟨by simp [hspec, hpk],
          update_invariant st.2 (positionSpec entry exitS) k (st.2 k) h2
            (by rw [h2 k le_rfl, hspec])⟩

/-- The loop-produced `Position` column agrees with the spec state machine on
every row of the frame. -/
theorem runPositions_eq_spec (entry exitS : List Bool) (n t : Nat) (ht : t < n) :
    runPositions entry exitS n t = positionSpec entry exitS t := by
  have h := (runPositions_aux entry exitS (n - 1)).2 t (by omega)
  simpa [runPositions] using h

/-- Daily percentage change, `Series.pct_change()`: NaN at the first row. -/
def pctChange (btc : List ℚ) : Nat → Option ℚ
  | 0 => none
  | t + 1 =>
    match btc.get? t, btc.get? (t + 1) with
    | some p0, some p1 => some (p1 / p0 - 1)
    | _, _ => none

/-- Strategy return from `pages/06_ScaleSignals_Backtest.py` line 144:
`bt["StratRet"] = bt["Ret"] * bt["Position"].shift(1)` — the day-`t` return is
multiplied by the position at day `t - 1`, not the day-`t` position. -/
def stratRet (btc : List ℚ) (entry exitS : List Bool) : Nat → Option ℚ
  | 0 => none
  | t + 1 => (pctChange btc (t + 1)).map
      (fun r => r * (runPositions entry exitS btc.length t : ℚ))

/-- Equity curve from line 145: cumulative product of
`1 + StratRet.fillna(0)`, one value per row of the frame. -/
def equityCurve (btc : List ℚ) (entry exitS : List Bool) : List ℚ :=
  (List.range btc.length).map fun t =>
    ((List.range (t + 1)).map fun s => 1 + (stratRet btc entry exitS s).getD 0).prod

/-- C2 amended: the `Position` column follows the spec state machine (day
`t` decided only from day `t-1` signals), but line 144 multiplies the day-`t`
BTC return by the position at day `t-1` (`Position.shift(1)`), not by the
day-`t` position. -/
theorem backtest_position_and_return (btc : List ℚ) (entry exitS : List Bool)
    (t : Nat) (p0 p1 : ℚ) (h0 : btc.get? t = some p0) (h1 : btc.get? (t + 1) = some p1) :
    runPositions entry exitS btc.length t = positionSpec entry exitS t
    ∧ stratRet btc entry exitS (t + 1)
        = some ((p1 / p0 - 1) * (positionSpec entry exitS t : ℚ)) := by
  have ht : t < btc.length := by
    have := List.get?_eq_some.mp h0
    exact this.1
  have hpos := runPositions_eq_spec entry exitS btc.length t ht
  refine ⟨hpos, ?_⟩
  show (pctChange btc (t + 1)).map
      (fun r => r * (runPositions entry exitS btc.length t : ℚ))
    = some ((p1 / p0 - 1) * (positionSpec entry exitS t : ℚ))
  have hpc : pctChange btc (t + 1) = some (p1 / p0 - 1) := by
    simp only [pctChange, h0, h1]
  rw [hpc, Option.map_some', hpos]

/-- Witness for C2: two prices, an entry signal on day 0, position at day 0
is flat so the day-1 strategy return is the day-1 BTC return times zero. -/
theorem backtest_position_and_return_witness :
    runPositions [true] [false] ([(100 : ℚ), 110] : List ℚ).length 0
        = positionSpec [true] [false] 0
    ∧ stratRet [(100 : ℚ), 110] [true] [false] 1
        = some (((110 : ℚ) / 100 - 1) * (positionSpec [true] [false] 0 : ℚ)) :=
  backtest_position_and_return [(100 : ℚ), 110] [true] [false] 0 100 110 rfl rfl

/-- Concrete backtest run used to refute the same-day return formula of C2:
three BTC prices with a single entry signal on day 0. -/
def cexBtc : List ℚ := [100, 110, 121]

def cexEntry : List Bool := [true, false, false]

def cexExit : List Bool := [false, false, false]

/-- C2 counterexample: on day 1 the position is 1 and the BTC return is
`110/100 - 1`, yet the computed strategy return is 0 because the code uses the
day-0 position; so the strategy return does not equal the BTC return times the
day-1 position. -/
theorem stratret_not_day_t_position_cex :
    runPositions cexEntry cexExit 3 1 = 1
    ∧ pctChange cexBtc 1 = some (110 / 100 - 1)
    ∧ stratRet cexBtc cexEntry cexExit 1 = some 0
    ∧ ¬(((110 : ℚ) / 100 - 1) * 1 = 0) := by
  have hrun0 : runPositions cexEntry cexExit 3 0 = 0 := by decide
  have hrun1 : runPositions cexEntry cexExit 3 1 = 1 := by decide
  refine ⟨hrun1, rfl, ?_, by norm_num⟩
  have hstep : stratRet cexBtc cexEntry cexExit 1
      = some ((110 / 100 - 1) * (runPositions cexEntry cexExit 3 0 : ℚ)) := rfl
  rw [hstep, hrun0]
  norm_num

/-- Pandas comparison `series <= c` followed by `.fillna(False)`: a missing
(NaN) value yields `false`, as in lines 104-118 of the backtest page. -/
def optLE (x : Option ℚ) (c : ℚ) : Bool :=
  match x with
  | some v => decide (v ≤ c)
  | none => false

/-- Pandas comparison `series >= c` followed by `.fillna(False)`. -/
def optGE (x : Option ℚ) (c : ℚ) : Bool :=
  match x with
  | some v => decide (c ≤ v)
  | none => false

/-- Threshold constants of `pages/06_ScaleSignals_Backtest.py` lines 101-102. -/
def CBBI_IN_MAX : ℚ := 20

def CBBI_OUT_MIN : ℚ := 90

def CB_RANK_HOT_MAX : ℚ := 5

def CB_RANK_COLD_MIN : ℚ := 100

/-- Number of true entry conditions on one day
(`entry_true = sum([p.fillna(False) for p in entry_parts])`, lines 104-117). -/
def entryTrue (cbbi rank relp : Option ℚ) (hin : Bool) (pctl : ℚ) : Nat :=
  (if optLE cbbi CBBI_IN_MAX then 1 else 0)
  + (if optGE rank CB_RANK_COLD_MIN then 1 else 0)
  + (if optLE relp pctl then 1 else 0)
  + (if hin then 1 else 0)

/-- Number of true exit conditions on one day (lines 110-118). -/
def exitTrue (pitop : Bool) (cbbi rank : Option ℚ) (hout : Bool) : Nat :=
  (if pitop then 1 else 0)
  + (if optGE cbbi CBBI_OUT_MIN then 1 else 0)
  + (if optLE rank CB_RANK_HOT_MAX then 1 else 0)
  + (if hout then 1 else 0)

/-- The left join of a fetched (date, value) history onto the `n`-day price
frame (lines 84-93): a day with no fetched row gets NaN; if the fetched
history is empty the whole column is NaN (`df["cbbi"] = np.nan`). -/
def joinColumn (n : Nat) (hist : List (Nat × ℚ)) : List (Option ℚ) :=
  (List.range n).map fun t => (hist.find? (fun pr => pr.1 == t)).map Prod.snd

/-- C1: when a required input history (CBBI or Coinbase rank) cannot be
fetched — the fetched history is empty — the backtest page does not abort:
the joined column is all-NaN, `fillna(False)` silently turns the condition
on that series into `false` in the signal count, and the equity curve is
still computed for every day of the run. -/
theorem backtest_missing_series_defaults (n : Nat) (rank relp : Option ℚ)
    (hin : Bool) (pctl : ℚ) (btc : List ℚ) (entry exitS : List Bool) :
    joinColumn n [] = List.replicate n none
    ∧ entryTrue none rank relp hin pctl
        = (if optGE rank CB_RANK_COLD_MIN then 1 else 0)
          + (if optLE relp pctl then 1 else 0)
          + (if hin then 1 else 0)
    ∧ exitTrue false none rank hin
        = (if optLE rank CB_RANK_HOT_MAX then 1 else 0) + (if hin then 1 else 0)
    ∧ (equityCurve btc entry exitS).length = btc.length := by
  refine ⟨?_, ?_, ?_, ?_⟩
  · simp only [joinColumn, List.find?_nil, Option.map_none']
    rw [List.map_const', List.length_range]
  · simp [entryTrue, optLE]
  · simp [exitTrue, optLE, optGE]
  · simp [equityCurve]

/-- The status strings producible by `get_indicator_status` in `app.py`
(sections 4.3-4.7 of the design: MAG7 index, Pi Cycle, Coinbase rank, CBBI,
halving cycle), plus the missing-value status. -/
def statusUniverse : List String :=
  ["Unknown", "Bullish", "Neutral", "Bearish",
    "Top Signal", "Normal", "Warning",
    "Market Euphoria", "Growing Interest", "Normal Interest",
    "Extreme Greed", "Greed", "Fear",
    "Late Cycle", "Mid Cycle", "Early Cycle"]

/-- Bullish tally of `app.py` line 313. -/
def bullishCount (ss : List String) : Nat :=
  ss.count ("Bullish") + ss.count ("Normal") + ss.count ("Accumulation")
    + ss.count ("Early Cycle")

/-- Neutral tally of `app.py` line 314. -/
def neutralCount (ss : List String) : Nat :=
  ss.count ("Neutral") + ss.count ("Warning") + ss.count ("Growing Interest")
    + ss.count ("Caution") + ss.count ("Mid Cycle")

/-- Bearish tally of `app.py` line 315. -/
def bearishCount (ss : List String) : Nat :=
  ss.count ("Bearish") + ss.count ("Top Signal") + ss.count ("Market Euphoria")
    + ss.count ("Near Top") + ss.count ("Late Cycle")

/-- The four mutually exclusive branches of the market summary,
`app.py` lines 328-335. -/
inductive OverallRead where
  | strongWarning
  | moderateWarning
  | favorable
  | mixed
deriving DecidableEq

/-- Market summary rule of `app.py` lines 328-335. -/
def marketSummary (ss : List String) : OverallRead :=
  if 3 ≤ bearishCount ss then OverallRead.strongWarning
  else if 2 ≤ bearishCount ss then OverallRead.moderateWarning
  else if 3 ≤ bullishCount ss then OverallRead.favorable
  else OverallRead.mixed

/-- The statuses that the three tallies actually count. -/
def countedStatuses : List String :=
  ["Bullish", "Normal", "Early Cycle",
    "Neutral", "Warning", "Growing Interest", "Mid Cycle",
    "Bearish", "Top Signal", "Market Euphoria", "Late Cycle"]

theorem bullishCount_cons (s : String) (ss : List String) :
    bullishCount (s :: ss) = bullishCount [s] + bullishCount ss := by
  simp only [bullishCount, List.count_cons, List.count_nil]
  ring

theorem neutralCount_cons (s : String) (ss : List String) :
    neutralCount (s :: ss) = neutralCount [s] + neutralCount ss := by
  simp only [neutralCount, List.count_cons, List.count_nil]
  ring

theorem bearishCount_cons (s : String) (ss : List String) :
    bearishCount (s :: ss) = bearishCount [s] + bearishCount ss := by
  simp only [bearishCount, List.count_cons, List.count_nil]
  ring

/-- Per-status weight across the three tallies: 1 for the counted statuses,
0 for all others in the universe — including the CBBI statuses and the benign
rank status, which no tally mentions. -/
theorem counted_weight : ∀ s ∈ statusUniverse,
    bullishCount [s] + neutralCount [s] + bearishCount [s]
      = (if s ∈ countedStatuses then 1 else 0) := by decide

/-- C6 counterexample: "Extreme Greed" is a non-Unknown status from the
status enums, yet the three tallies of the aggregator all ignore it, so the
counts sum to 0 while the list holds one non-Unknown status. -/
theorem aggregator_drops_status_cex :
    ("Extreme Greed") ∈ statusUniverse
    ∧ ("Extreme Greed") ≠ ("Unknown")
    ∧ bullishCount [("Extreme Greed")] + neutralCount [("Extreme Greed")]
        + bearishCount [("Extreme Greed")] = 0
    ∧ (List.filter (fun s => !(s == ("Unknown"))) [("Extreme Greed")]).length = 1 := by
  decide

/-- C6 amended: each status in `countedStatuses` lands in exactly one tally,
every other status of the universe (Unknown, Normal Interest, Extreme Greed,
Greed, Fear) is counted in none, so the three tallies sum to the number of
statuses in `countedStatuses`; the overall read fires strong warning iff the
bearish count is at least 3, moderate warning iff it is exactly covered by
2, favorable iff bullish is at least 3 with bearish below 2; the worked
example still yields a strong warning. -/
theorem aggregator_amended (ss : List String) (hss : ∀ s ∈ ss, s ∈ statusUniverse) :
    bullishCount ss + neutralCount ss + bearishCount ss
        = (ss.filter (fun s => decide (s ∈ countedStatuses))).length
    ∧ (marketSummary ss = OverallRead.strongWarning ↔ 3 ≤ bearishCount ss)
    ∧ (marketSummary ss = OverallRead.moderateWarning
        ↔ (2 ≤ bearishCount ss ∧ bearishCount ss < 3))
    ∧ (marketSummary ss = OverallRead.favorable
        ↔ (3 ≤ bullishCount ss ∧ bearishCount ss < 2))
    ∧ marketSummary [("Bullish"), ("Bearish"), ("Bearish"), ("Bearish"), ("Neutral")]
        = OverallRead.strongWarning
    ∧ bearishCount [("Bullish"), ("Bearish"), ("Bearish"), ("Bearish"), ("Neutral")] = 3 := by
  refine ⟨?_, ?_, ?_, ?_, by decide, by decide⟩
  · induction ss with
    | nil => simp [bullishCount, neutralCount, bearishCount]
    | cons s rest ih =>
      have hs : s ∈ statusUniverse := hss s (by simp)
      have hrest : ∀ x ∈ rest, x ∈ statusUniverse := fun x hx => hss x (by simp [hx])
      have hw := counted_weight s hs
      have hih := ih hrest
      rw [bullishCount_cons, neutralCount_cons, bearishCount_cons, List.filter_cons]
      by_cases hc : s ∈ countedStatuses
      · rw [if_pos hc] at hw
        rw [if_pos (by simpa using hc)]
        simp only [List.length_cons]
        omega
      · rw [if_neg hc] at hw
        rw [if_neg (by simpa using hc)]
        omega
  · unfold marketSummary
    split_ifs with h1 h2 h3 <;> simp_all
  · unfold marketSummary
    split_ifs with h1 h2 h3 <;> simp_all <;> omega
  · unfold marketSummary
    split_ifs with h1 h2 h3 <;> simp_all <;> omega

/-- Witness for the amended C6 statement on the worked five-status example. -/
theorem aggregator_amended_witness :
    bullishCount [("Bullish"), ("Bearish"), ("Bearish"), ("Bearish"), ("Neutral")]
        + neutralCount [("Bullish"), ("Bearish"), ("Bearish"), ("Bearish"), ("Neutral")]
        + bearishCount [("Bullish"), ("Bearish"), ("Bearish"), ("Bearish"), ("Neutral")]
      = (List.filter (fun s => decide (s ∈ countedStatuses))
          [("Bullish"), ("Bearish"), ("Bearish"), ("Bearish"), ("Neutral")]).length
    ∧ (marketSummary [("Bullish"), ("Bearish"), ("Bearish"), ("Bearish"), ("Neutral")]
        = OverallRead.strongWarning
      ↔ 3 ≤ bearishCount [("Bullish"), ("Bearish"), ("Bearish"), ("Bearish"), ("Neutral")]) :=
  ⟨(aggregator_amended _ (by decide)).1, (aggregator_amended _ (by decide)).2.1⟩

/-- Scalar fields of the payload built by `get_mag7_btc_data` in
`utils/mag7_btc.py` lines 90-100. The full payload also carries the series
keys `dates`, `index_values`, `ma200`, `ma150`, `ema200`, `ema150` and the
`tops`/`bottoms` lists; its only scalar keys are `current_value`,
`current_ma150` and `current_ma200` — there is no `current_ma100` key. -/
structure Mag7Response where
  current_value : Option ℚ
  current_ma150 : Option ℚ
  current_ma200 : Option ℚ

/-- Python `dict.get(key)` on the scalar keys of the MAG7 payload: `none`
for any key the payload does not contain. -/
def mag7Get (r : Mag7Response) (key : String) : Option ℚ :=
  if key = ("current_value") then r.current_value
  else if key = ("current_ma150") then r.current_ma150
  else if key = ("current_ma200") then r.current_ma200
  else none

/-- The "MAG7 vs BTC" branch of `get_indicator_status` (`app.py` lines
62-81): Unknown when the value or either moving average is missing. -/
def mag7Status (value ma150 ma200 : Option ℚ) : String × String :=
  match value with
  | none => ("Unknown", "gray")
  | some v =>
    match ma150, ma200 with
    | some m1, some m2 =>
      if m1 < v then ("Bullish", "green")
      else if v < m2 then ("Bearish", "red")
      else ("Neutral", "yellow")
    | _, _ => ("Unknown", "gray")

/-- The MAG7 status computed by the Combined Market Analysis
(`app.py` lines 280-285), which reads the key `current_ma100`. -/
def combinedMag7Status (r : Mag7Response) : String :=
  (mag7Status (mag7Get r ("current_value")) (mag7Get r ("current_ma100"))
    (mag7Get r ("current_ma200"))).1

/-- C10: for every MAG7 payload the Combined Market Analysis resolves the
MAG7 indicator to "Unknown", because it looks up `current_ma100`, a key the
index builder never emits; and "Unknown" leaves all three tallies unchanged. -/
theorem combined_mag7_always_unknown (r : Mag7Response) (ss : List String) :
    combinedMag7Status r = ("Unknown")
    ∧ bullishCount (("Unknown") :: ss) = bullishCount ss
    ∧ neutralCount (("Unknown") :: ss) = neutralCount ss
    ∧ bearishCount (("Unknown") :: ss) = bearishCount ss := by
  refine ⟨?_, ?_, ?_, ?_⟩
  · show (mag7Status (mag7Get r ("current_value")) (mag7Get r ("current_ma100"))
        (mag7Get r ("current_ma200"))).1 = ("Unknown")
    have hma100 : mag7Get r ("current_ma100") = none := rfl
    rw [hma100]
    cases hv : mag7Get r ("current_value") with
    | none => rfl
    | some v =>
      cases hm : mag7Get r ("current_ma200") with
      | none => rfl
      | some m => rfl
  · simp [bullishCount, List.count_cons]
  · simp [neutralCount, List.count_cons]
  · simp [bearishCount, List.count_cons]

/-- The numeric branch of the "Coinbase Rank" status classification
(`app.py` lines 100-110). -/
def numericRankStatus (n : ℤ) : String × String :=
  if n ≤ 10 then ("Market Euphoria", "red")
  else if n ≤ 50 then ("Growing Interest", "yellow")
  else ("Normal Interest", "green")

/-- A Coinbase rank value: either a numeric rank or the string form used for
out-of-range readings (such as "200+"). -/
inductive RankInput where
  | rank (n : ℤ)
  | textRank (s : String)

/-- The "Coinbase Rank" branch of `get_indicator_status` (`app.py` lines
92-110): a string containing a plus sign short-circuits to Normal Interest,
other strings go through numeric conversion with Normal Interest as the
conversion-failure fallback, and numeric values are thresholded. -/
def coinbaseRankStatus : RankInput → String × String
  | RankInput.textRank s =>
    if s.contains ('+') then ("Normal Interest", "green")
    else
      match s.toInt? with
      | some n => numericRankStatus n
      | none => ("Normal Interest", "green")
  | RankInput.rank n => numericRankStatus n

/-- C8: the rank classifier is total on positive ranks and the sentinel:
Market Euphoria exactly for rank at most 10, Growing Interest exactly for
ranks 11-50 (so rank 50 resolves to Growing Interest), Normal Interest
exactly above 50, and every plus-sign string — the out-of-range sentinel —
resolves to Normal Interest. -/
theorem rank_classifier_correct (n : ℤ) (hn : 0 < n) :
    ((coinbaseRankStatus (RankInput.rank n)).1 = ("Market Euphoria") ↔ n ≤ 10)
    ∧ ((coinbaseRankStatus (RankInput.rank n)).1 = ("Growing Interest")
        ↔ (10 < n ∧ n ≤ 50))
    ∧ ((coinbaseRankStatus (RankInput.rank n)).1 = ("Normal Interest") ↔ 50 < n)
    ∧ (coinbaseRankStatus (RankInput.rank 50)).1 = ("Growing Interest")
    ∧ (∀ s, s.contains ('+') = true →
        (coinbaseRankStatus (RankInput.textRank s)).1 = ("Normal Interest")) := by
  refine ⟨?_, ?_, ?_, by decide, ?_⟩
  · simp only [coinbaseRankStatus, numericRankStatus]
    split_ifs with h1 h2 <;> simp_all <;> omega
  · simp only [coinbaseRankStatus, numericRankStatus]
    split_ifs with h1 h2 <;> simp_all <;> omega
  · simp only [coinbaseRankStatus, numericRankStatus]
    split_ifs with h1 h2 <;> simp_all <;> omega
  · intro s hs
    simp only [coinbaseRankStatus]
    rw [if_pos hs]

/-- Witness for C8 at rank 5, which classifies as Market Euphoria. -/
theorem rank_classifier_correct_witness :
    ((coinbaseRankStatus (RankInput.rank 5)).1 = ("Market Euphoria") ↔ (5 : ℤ) ≤ 10)
    ∧ ((coinbaseRankStatus (RankInput.rank 5)).1 = ("Growing Interest")
        ↔ (10 < (5 : ℤ) ∧ (5 : ℤ) ≤ 50))
    ∧ ((coinbaseRankStatus (RankInput.rank 5)).1 = ("Normal Interest") ↔ 50 < (5 : ℤ))
    ∧ (coinbaseRankStatus (RankInput.rank 50)).1 = ("Growing Interest")
    ∧ (∀ s, s.contains ('+') = true →
        (coinbaseRankStatus (RankInput.textRank s)).1 = ("Normal Interest")) :=
  rank_classifier_correct 5 (by norm_num)

/-- Fallback chain of `scrape_official_cbbi_score` in `utils/cbbi.py` lines
133-217, parameterised by the outcomes of the two external fetches: a score
scraped from the HTML page is returned as is; otherwise a score from the
JSON API is returned (with the 0.74-range value pinned to 0.76); and when
both fail the hard-coded constant 0.76 is returned. The exception handler
returns the same constant. -/
def scrapeOfficialCbbiScore (htmlScore apiScore : Option ℚ) : ℚ :=
  match htmlScore with
  | some s => s
  | none =>
    match apiScore with
    | some s => if 0.74 ≤ s ∧ s < 0.75 then 0.76 else s
    | none => 0.76

/-- The payload built by `get_cbbi_data` (`utils/cbbi.py` lines 67-73): its
only keys are `score`, `last_updated`, `btc_price` and `history` — it has no
provenance field of any kind. -/
structure CbbiResponse where
  score : ℚ
  last_updated : String
  btc_price : Option ℚ
  history : List (String × ℚ × ℚ)

/-- The response assembly of `get_cbbi_data`, with the external fetch
outcomes, the current date, the BTC price and the generated history as
parameters. -/
def get_cbbi_data (htmlScore apiScore : Option ℚ) (today : String)
    (btcPrice : Option ℚ) (history : List (String × ℚ × ℚ)) : CbbiResponse :=
  { score := scrapeOfficialCbbiScore htmlScore apiScore
    last_updated := today
    btc_price := btcPrice
    history := history }

/-- C5 evaluation: when both the HTML scrape and the JSON API fail, the
provider returns the fixed constant 0.76, and the resulting payload is
byte-for-byte the payload of a live reading of 0.76 — the response type has
no provenance field, so degraded readings are indistinguishable from live
ones. -/
theorem cbbi_fallback_untagged :
    scrapeOfficialCbbiScore none none = 0.76
    ∧ get_cbbi_data none none ("2025-05-01") none []
        = get_cbbi_data (some 0.76) none ("2025-05-01") none [] :=
  ⟨rfl, rfl⟩

/-- The weight dictionary of `utils/mag7_btc.py` lines 61-69. TSLA carries
no weight (pandas drops the NaN-weighted column from the row sum), and the
listed weights sum to 1. -/
def mag7Weights : List (String × ℚ) :=
  [("BTC-USD", 0.5), ("MSFT", 0.1), ("AAPL", 0.1), ("GOOGL", 0.1),
    ("AMZN", 0.1), ("META", 0.05), ("NVDA", 0.05)]

/-- Per-series normalisation to 100 at the alignment row
(`normalized_data = data / data.iloc[0] * 100`, line 58). -/
def normalizedSeries (raw : String → Nat → ℚ) (k : String) (t : Nat) : ℚ :=
  raw k t / raw k 0 * 100

/-- The raw composite before smoothing
(`(normalized_data * pd.Series(weights)).sum(axis=1)`, line 73). -/
def rawComposite (raw : String → Nat → ℚ) (t : Nat) : ℚ :=
  (mag7Weights.map (fun kw => normalizedSeries raw kw.1 t * kw.2)).sum

/-- C7: the weights sum to exactly 1, and whenever every weighted series has
a nonzero value at the alignment row, the raw composite equals exactly 100
there, before the 7-day smoothing. -/
theorem composite_alignment_100 (raw : String → Nat → ℚ)
    (h : ∀ kw ∈ mag7Weights, raw kw.1 0 ≠ 0) :
    (mag7Weights.map Prod.snd).sum = 1 ∧ rawComposite raw 0 = 100 := by
  constructor
  · norm_num [mag7Weights]
  · have h1 : raw ("BTC-USD") 0 ≠ 0 := h (("BTC-USD"), 0.5) (by simp [mag7Weights])
    have h2 : raw ("MSFT") 0 ≠ 0 := h (("MSFT"), 0.1) (by simp [mag7Weights])
    have h3 : raw ("AAPL") 0 ≠ 0 := h (("AAPL"), 0.1) (by simp [mag7Weights])
    have h4 : raw ("GOOGL") 0 ≠ 0 := h (("GOOGL"), 0.1) (by simp [mag7Weights])
    have h5 : raw ("AMZN") 0 ≠ 0 := h (("AMZN"), 0.1) (by simp [mag7Weights])
    have h6 : raw ("META") 0 ≠ 0 := h (("META"), 0.05) (by simp [mag7Weights])
    have h7 : raw ("NVDA") 0 ≠ 0 := h (("NVDA"), 0.05) (by simp [mag7Weights])
    simp only [rawComposite, mag7Weights, List.map_cons, List.map_nil,
      List.sum_cons, List.sum_nil, normalizedSeries]
    rw [div_self h1, div_self h2, div_self h3, div_self h4, div_self h5,
      div_self h6, div_self h7]
    norm_num

/-- Witness for C7 on the constant-1 price panel. -/
theorem composite_alignment_100_witness :
    (mag7Weights.map Prod.snd).sum = 1 ∧ rawComposite (fun _ _ => 1) 0 = 100 :=
  composite_alignment_100 (fun _ _ => 1) (fun _ _ => one_ne_zero)

/-- Gregorian leap-year test. -/
def isLeapYear (y : Nat) : Bool :=
  y % 4 == 0 && (y % 100 != 0 || y % 400 == 0)

/-- Month lengths of year `y`. -/
def monthLengths (y : Nat) : List Nat :=
  [31, if isLeapYear y then 29 else 28, 31, 30, 31, 30, 31, 31, 30, 31, 30, 31]

/-- Proleptic Gregorian day number of a calendar date, so that subtracting
two day numbers equals the `timedelta.days` of the corresponding midnight
datetimes. -/
def dayOrdinal (y m d : Nat) : Nat :=
  365 * (y - 1) + ((y - 1) / 4 - (y - 1) / 100 + (y - 1) / 400)
    + ((monthLengths y).take (m - 1)).sum + d

/-- The hard-coded halving table of `utils/halving_tracker.py` lines 34-39,
as day numbers of 2012-11-28, 2016-07-09, 2020-05-11 and 2024-04-20. -/
def halvingDates : List Nat :=
  [dayOrdinal 2012 11 28, dayOrdinal 2016 7 9, dayOrdinal 2020 5 11,
    dayOrdinal 2024 4 20]

/-- The scalar fields of the halving payload
(`utils/halving_tracker.py` lines 79-86). -/
structure HalvingResponse where
  last_halving_date : Nat
  days_since_halving : ℤ
  next_halving_date : Nat
  days_until_next_halving : ℤ
  projected_top_date : Nat
  days_until_projected_top : ℤ

/-- The scan of lines 45-49: iterate the table in order and keep the last
halving date at most `today`. -/
def findLastHalving (today : Nat) : Option Nat :=
  halvingDates.foldl (fun acc hd => if hd ≤ today then some hd else acc) none

/-- The scan of lines 57-62: the first tabulated halving after `today`. -/
def findNextHalving (today : Nat) : Option Nat :=
  halvingDates.find? (fun hd => decide (today < hd))

/-- The core of `get_halving_data` (lines 44-86 and the no-halving branch of
lines 158-160): `None` with a logged error when no tabulated halving is at
or before `today`; otherwise the cycle-position payload, with the next
halving estimated at 4*365 days when not tabulated and the projected top at
520 days after the last halving. The price-history fields fetched from the
network are not modelled. -/
def get_halving_data (today : Nat) : Option HalvingResponse :=
  match findLastHalving today with
  | none => none
  | some lh =>
    let nextH : Nat :=
      match findNextHalving today with
      | some nh => nh
      | none => lh + 4 * 365
    some { last_halving_date := lh
           days_since_halving := (today : ℤ) - (lh : ℤ)
           next_halving_date := nextH
           days_until_next_halving := (nextH : ℤ) - (today : ℤ)
           projected_top_date := lh + 520
           days_until_projected_top := ((lh : ℤ) + 520) - (today : ℤ) }

/-- C9: on or after the first tabulated halving the tracker returns a
payload whose `days_until_projected_top` is the last halving day plus 520
minus `today` — zero exactly at the last halving plus 520 days — and before
the first tabulated halving it fails with `None` instead of returning
negative or undefined day counts. -/
theorem halving_projected_top (today : Nat) :
    (dayOrdinal 2012 11 28 ≤ today →
      ∃ r, get_halving_data today = some r
        ∧ r.days_until_projected_top
            = (r.last_halving_date : ℤ) + 520 - (today : ℤ)
        ∧ (today = r.last_halving_date + 520 → r.days_until_projected_top = 0))
    ∧ (today < dayOrdinal 2012 11 28 → get_halving_data today = none) := by
  constructor
  · intro h
    obtain ⟨lh, hlh⟩ : ∃ lh, findLastHalving today = some lh := by
      unfold findLastHalving halvingDates
      simp only [List.foldl_cons, List.foldl_nil]
      rw [if_pos h]
      split_ifs <;> exact ⟨_, rfl⟩
    cases hnx : findNextHalving today with
    | some nh =>
      refine ⟨⟨lh, (today : ℤ) - (lh : ℤ), nh, (nh : ℤ) - (today : ℤ), lh + 520,
        ((lh : ℤ) + 520) - (today : ℤ)⟩, ?_, rfl, ?_⟩
      · simp only [get_halving_data, hlh, hnx]
      · intro heq
        dsimp only at heq ⊢
        omega
    | none =>
      refine ⟨⟨lh, (today : ℤ) - (lh : ℤ), lh + 4 * 365,
        ((lh + 4 * 365 : ℕ) : ℤ) - (today : ℤ), lh + 520,
        ((lh : ℤ) + 520) - (today : ℤ)⟩, ?_, rfl, ?_⟩
      · simp only [get_halving_data, hlh, hnx]
      · intro heq
        dsimp only at heq ⊢
        omega
  · intro h
    have o12 : dayOrdinal 2012 11 28 < dayOrdinal 2016 7 9 := by decide
    have o23 : dayOrdinal 2016 7 9 < dayOrdinal 2020 5 11 := by decide
    have o34 : dayOrdinal 2020 5 11 < dayOrdinal 2024 4 20 := by decide
    have hnone : findLastHalving today = none := by
      unfold findLastHalving halvingDates
      simp only [List.foldl_cons, List.foldl_nil]
      rw [if_neg (by omega), if_neg (by omega), if_neg (by omega), if_neg (by omega)]
    simp only [get_halving_data, hnone]

/-- Witness for C9 at 2025-09-22, which is exactly 520 days after the
2024-04-20 halving. -/
theorem halving_projected_top_witness :
    dayOrdinal 2012 11 28 ≤ dayOrdinal 2025 9 22
    ∧ ∃ r, get_halving_data (dayOrdinal 2025 9 22) = some r
        ∧ r.days_until_projected_top
            = (r.last_halving_date : ℤ) + 520 - (dayOrdinal 2025 9 22 : ℤ)
        ∧ (dayOrdinal 2025 9 22 = r.last_halving_date + 520 →
            r.days_until_projected_top = 0) :=
  ⟨by decide, (halving_projected_top (dayOrdinal 2025 9 22)).1 (by decide)⟩
